import Mathlib

/-!
Verification of the CrossFit Performance App Scoring Engine against its
specification. The backend engine (backend/app/engine/ewu_calculator.py,
metrics_calculator.py, workout_typer.py, normalizer.py, domain_scorer.py)
is described by src/README.md and src/docs/ARCHITECTURE.md but its source
is not part of the staged files, so those components are modelled from the
spec; the frontend TypeScript components (MovementEntry.tsx, LogWorkout.tsx)
are embedded from their source.
-/

namespace Prodigy

/-- Movement modality: machine (fed by calories), barbell lift (fed by
load × reps), or bodyweight gymnastics (uncalibrated). Derived
deterministically from the movement type (MovementEntry.tsx groups the
movement types into exactly these three lists). -/
inductive Modality where
  | machine
  | barbell
  | gymnastics
deriving DecidableEq, Repr

/-- A movement entry as consumed by the Work-Unit Calculator: modality,
repetitions, optional external load (lb), optional machine calories. -/
structure MovementEntry where
  modality : Modality
  reps : ℕ
  load_lb : Option ℚ
  calories : Option ℚ
deriving DecidableEq, Repr

/-- The two failure kinds of the Work-Unit Calculator the spec
distinguishes (§7): a validation failure (modality-required field absent)
and the distinct uncalibrated-modality condition for gymnastics. -/
inductive EwuError where
  | validationFailure
  | uncalibratedModality
deriving DecidableEq, Repr

/-- Modelled from the spec: the calibration constant dividing barbell-lift
load × reps (README: `Lift_EWU = (load_lb × reps) / 50`); the engine file
ewu_calculator.py is not in the staged repository. -/
def liftDivisor : ℚ := 50

/-- Modelled from the spec: the Work-Unit Calculator (§4.1, README "EWU");
ewu_calculator.py is not in the staged repository. Machine → calories
identically; barbell lift → load × reps / 50; gymnastics → the distinct
uncalibrated-modality condition; a missing modality-required field is a
validation failure. -/
def ewu (e : MovementEntry) : Except EwuError ℚ :=
  match e.modality with
  | .machine =>
      match e.calories with
      | some c => .ok c
      | none => .error .validationFailure
  | .barbell =>
      match e.load_lb with
      | some l => .ok (l * e.reps / liftDivisor)
      | none => .error .validationFailure
  | .gymnastics => .error .uncalibratedModality

/-- The structural workout types of the classifier together with the
caller-declared template types (LogWorkout.tsx TEMPLATE_OPTIONS and
ARCHITECTURE.md WorkoutTyper use the same vocabulary). -/
inductive WType where
  | sprint
  | threshold
  | endurance
  | interval
  | chipper
  | strength
  | monostructural
  | custom
deriving DecidableEq, Repr

/-- The session shape the classifier inspects: duration (seconds), round
count, whether splits are present, distinct movement count, modality
shares, the low-reps-per-set flag (its exact cutoff is left configurable
by the spec §9), and the caller-declared template type. -/
structure SessionShape where
  duration : ℕ
  roundCount : ℕ
  hasSplits : Bool
  movementCount : ℕ
  liftShare : ℚ
  machineShare : ℚ
  lowRepPerSet : Bool
  template : WType

/-- Modelled from the spec: the Session Classifier's ordered priority
chain (§4.3, ARCHITECTURE.md WorkoutTyper); workout_typer.py is not in the
staged repository. Duration checks come first (sprint < 300 s, threshold
300–900 s, endurance ≥ 900 s), then interval, chipper, strength and
monostructural checks. -/
def classifierChain : List ((SessionShape → Bool) × WType) :=
  [ (fun s => decide (s.duration < 300), .sprint),
    (fun s => decide (300 ≤ s.duration) && decide (s.duration < 900), .threshold),
    (fun s => decide (900 ≤ s.duration), .endurance),
    (fun s => s.hasSplits && decide (1 < s.roundCount), .interval),
    (fun s => decide (4 < s.movementCount) && decide (s.roundCount = 1), .chipper),
    (fun s => decide ((8 : ℚ) / 10 < s.liftShare) && s.lowRepPerSet, .strength),
    (fun s => decide (s.machineShare = 1), .monostructural) ]

/-- Modelled from the spec: first match of the priority chain wins; no
match falls through to the caller-declared template type (§4.3). -/
def workoutTyper (s : SessionShape) : WType :=
  match classifierChain.find? (fun r => r.1 s) with
  | some r => r.2
  | none => s.template

/-- The confidence vocabulary of the domain_scores table
(DATABASE_SCHEMA.md confidence_level enum; ConfidenceBadge shows the same
four values). -/
inductive ConfidenceLevel where
  | noData
  | low
  | medium
  | high
deriving DecidableEq, Repr

/-- Modelled from the spec: the Domain Scorer's confidence tier from the
sample count (§4.6, ARCHITECTURE.md DomainScorer: low < 5, medium 5–14,
high ≥ 15); domain_scorer.py is not in the staged repository. -/
def confidenceTier (sampleCount : ℕ) : ConfidenceLevel :=
  if sampleCount < 5 then .low
  else if sampleCount < 15 then .medium
  else .high

/-- Modelled from the spec: the Normalizer (§4.5, ARCHITECTURE.md
Normalizer); normalizer.py is not in the staged repository. It returns the
fraction of snapshot values ≤ the new value scaled to 0–100, and null only
on an empty snapshot. -/
def normalizeScore (v : ℚ) (snapshot : List ℚ) : Option ℚ :=
  if snapshot.isEmpty then none
  else some (100 * ((snapshot.filter fun x => decide (x ≤ v)).length : ℚ)
      / (snapshot.length : ℚ))

/-- A movement entry paired with its already-computed work quantity, the
input shape of the Session Metrics Calculator (§4.2: "full Session plus
each Movement Entry's computed work quantity"). -/
structure ScoredEntry where
  modality : Modality
  work : ℚ
deriving DecidableEq, Repr

/-- Modelled from the spec: total work quantity of a session, the sum over
all entries (§4.2, README "Total EWU: Sum of all work");
metrics_calculator.py is not in the staged repository. -/
def totalEwu (entries : List ScoredEntry) : ℚ :=
  (entries.map (·.work)).sum

/-- Work quantity attributed to one modality: the sum over the entries of
that modality. -/
def modalityEwu (m : Modality) (entries : List ScoredEntry) : ℚ :=
  ((entries.filter fun e => decide (e.modality = m)).map (·.work)).sum

/-- The fixed enumeration of the three modalities, used to list the
modalities present in a session in a canonical order. -/
def allModalities : List Modality :=
  [.machine, .barbell, .gymnastics]

/-- The modalities actually present among a session's entries, in the
canonical order. -/
def presentModalities (entries : List ScoredEntry) : List Modality :=
  allModalities.filter fun m => decide (m ∈ entries.map (·.modality))

/-- Modelled from the spec: the modality shares (§4.2): for each modality
present, its work quantity over the total; all null (none) when the total
work quantity is 0 rather than dividing by zero. -/
def modalityShares (entries : List ScoredEntry) : Option (List (Modality × ℚ)) :=
  if totalEwu entries = 0 then none
  else some ((presentModalities entries).map
      fun m => (m, modalityEwu m entries / totalEwu entries))

/-- Arithmetic mean of a list of rationals (division by zero on the empty
list yields 0, never reached on the guarded paths below). -/
def mean (l : List ℚ) : ℚ :=
  l.sum / (l.length : ℚ)

/-- Modelled from the spec: the fatigue drift ratio (§4.2, ARCHITECTURE.md
MetricsCalculator "Drift: (avg_second_half − avg_first_half) /
avg_first_half"); metrics_calculator.py is not in the staged repository.
The halves are the first ⌊n/2⌋ and last ⌊n/2⌋ splits, the middle element
of an odd count belonging to neither; null with fewer than 2 splits. -/
def fatigueDrift (splits : List ℚ) : Option ℚ :=
  let n := splits.length
  let h := n / 2
  if n < 2 then none
  else
    let firstHalf := splits.take h
    let secondHalf := splits.drop (n - h)
    some ((mean secondHalf - mean firstHalf) / mean firstHalf)

/-- Maximum of a list of rationals (0 on the empty list, never reached on
the guarded paths below). -/
def listMax : List ℚ → ℚ
  | [] => 0
  | x :: xs => xs.foldl max x

/-- Minimum of a list of rationals (0 on the empty list, never reached on
the guarded paths below). -/
def listMin : List ℚ → ℚ
  | [] => 0
  | x :: xs => xs.foldl min x

/-- Modelled from the spec: the consistency spread ratio (§4.2,
ARCHITECTURE.md MetricsCalculator "Spread: (max_bout − min_bout) /
avg_bout"); metrics_calculator.py is not in the staged repository. Null
with fewer than 2 splits. -/
def spreadRatio (splits : List ℚ) : Option ℚ :=
  if splits.length < 2 then none
  else some ((listMax splits - listMin splits) / mean splits)

/-- One record of a Distribution Store set: metric value, originating
session id, timestamp in days (DATABASE_SCHEMA.md distributions
values_json tuples). -/
structure DistEntry where
  value : ℚ
  sessionId : ℕ
  ts : ℕ
deriving DecidableEq, Repr

/-- The retention window in days (DATABASE_SCHEMA.md: window_days INTEGER
DEFAULT 180). -/
def windowDays : ℕ := 180

/-- The newest timestamp present in a distribution set (0 on the empty
set). -/
def newestTs : List DistEntry → ℕ
  | [] => 0
  | e :: es => max e.ts (newestTs es)

/-- Whether an entry is within the retention window measured from the
newest timestamp present: its age newest − ts is at most the window. -/
def inWindow (newest : ℕ) (e : DistEntry) : Bool :=
  decide (newest ≤ e.ts + windowDays)

/-- Modelled from the spec: the Distribution Store's insert (§4.4):
append, then evict the entries older than the window relative to the
newest timestamp in the set; the store implementation is not in the staged
repository. -/
def distInsert (store : List DistEntry) (e : DistEntry) : List DistEntry :=
  let appended := store ++ [e]
  appended.filter (inWindow (newestTs appended))

/-- Modelled from the spec: the Distribution Store's snapshot (§4.4): the
current in-window values, never considering expired entries. -/
def distSnapshot (store : List DistEntry) : List ℚ :=
  (store.filter (inWindow (newestTs store))).map (·.value)

/-- The frontend machine movement types (MovementEntry.tsx
MACHINE_MOVEMENTS). -/
def machineMovements : List String :=
  ["echo_bike", "rower", "ski_erg", "assault_bike", "run"]

/-- MovementEntry.tsx isMachineMovement: whether a movement type is one of
the machine movements. -/
def isMachineMovement (t : String) : Bool :=
  machineMovements.any fun m => m == t

/-- The frontend form state of one movement entry (MovementEntry.tsx
MovementData). -/
structure MovementData where
  movement_type : String
  reps : ℕ
  load_lb : Option ℚ
  calories : Option ℕ
deriving DecidableEq, Repr

/-- The MovementEntry.tsx onChange handler for a movement-type change:
selecting a machine movement clears load_lb and resets reps to 1;
selecting any other movement clears calories; merged over the previous
entry state as the spread in MovementList.handleChange does. -/
def applyTypeChange (m : MovementData) (newType : String) : MovementData :=
  if isMachineMovement newType then
    { m with movement_type := newType, load_lb := none, reps := 1 }
  else
    { m with movement_type := newType, calories := none }

/-- The frontend form state of one split (SplitEntry.tsx SplitData). -/
structure SplitData where
  round_number : ℕ
  time_seconds : ℤ
deriving DecidableEq, Repr

/-- LogWorkout.tsx handleSubmit's splits payload: keep the splits with
strictly positive time, and send null (none) when none remain. -/
def submittedSplits (splits : List SplitData) : Option (List SplitData) :=
  let validSplits := splits.filter fun s => decide (0 < s.time_seconds)
  if validSplits.length > 0 then some validSplits else none

/-- C1: for every machine-modality movement entry the Work-Unit Calculator
returns a work quantity equal to the entry's calories, and for every
barbell-lift movement entry it returns (external load × repetitions) / 50,
exactly. -/
theorem ewu_machine_identity_and_lift_formula (e : MovementEntry) :
    (∀ c : ℚ, e.modality = .machine → e.calories = some c → ewu e = .ok c) ∧
    (∀ l : ℚ, e.modality = .barbell → e.load_lb = some l →
      ewu e = .ok (l * (e.reps : ℚ) / 50)) := by
  constructor
  · intro c hm hc
    simp [ewu, hm, hc]
  · intro l hm hl
    simp [ewu, hm, hl, liftDivisor]

/-- Concrete instances of C1: a 10-calorie machine bout yields 10 work
units and an 8-rep 95-lb lift yields 95 × 8 / 50 = 15.2 work units. -/
theorem ewu_machine_identity_and_lift_formula_witness :
    ewu { modality := .machine, reps := 1, load_lb := none, calories := some 10 } = .ok 10 ∧
    ewu { modality := .barbell, reps := 8, load_lb := some 95, calories := none }
      = .ok (76 / 5) := by
  constructor
  · exact (ewu_machine_identity_and_lift_formula _).1 10 rfl rfl
  · have h := (ewu_machine_identity_and_lift_formula
      { modality := .barbell, reps := 8, load_lb := some 95, calories := none }).2
      95 rfl rfl
    rw [h]
    norm_num

/-- C8: for every bodyweight-gymnastics movement entry the Work-Unit
Calculator raises the distinct uncalibrated-modality condition, which is
not the validation-failure condition, and never returns a value (in
particular never silently returns zero). -/
theorem ewu_gymnastics_uncalibrated (e : MovementEntry)
    (h : e.modality = .gymnastics) :
    ewu e = .error .uncalibratedModality ∧
    ewu e ≠ .error .validationFailure ∧
    ∀ q : ℚ, ewu e ≠ .ok q := by
  simp [ewu, h]

/-- Concrete instance of C8: a gymnastics entry (10 pull-ups) raises the
uncalibrated-modality condition. -/
theorem ewu_gymnastics_uncalibrated_witness :
    ewu { modality := .gymnastics, reps := 10, load_lb := none, calories := none }
        = .error .uncalibratedModality ∧
    ewu { modality := .gymnastics, reps := 10, load_lb := none, calories := none }
        ≠ .error .validationFailure ∧
    ∀ q : ℚ, ewu { modality := .gymnastics, reps := 10, load_lb := none, calories := none }
        ≠ .ok q :=
  ewu_gymnastics_uncalibrated _ rfl

/-- C2: the classifier's duration checks are evaluated before any
structural or modality check, so every session of 900 seconds or more is
classified endurance regardless of round count, splits, or modality mix;
and when no rule of the chain matches, the result falls through to the
caller-declared template type. -/
theorem workoutTyper_duration_priority (s : SessionShape) :
    (900 ≤ s.duration → workoutTyper s = .endurance) ∧
    ((∀ r ∈ classifierChain, r.1 s = false) → workoutTyper s = s.template) := by
  constructor
  · intro h
    have h1 : ¬ s.duration < 300 := by omega
    have h2 : ¬ s.duration < 900 := by omega
    simp [workoutTyper, classifierChain, h1, h2, h]
  · intro h
    have : classifierChain.find? (fun r => r.1 s) = none :=
      List.find?_eq_none.mpr fun r hr => by simp [h r hr]
    simp [workoutTyper, this]

/-- Concrete instance of C2: a 1094-second session with 6 rounds, splits
present, pure machine modality and caller template "custom" is classified
endurance — the duration rule wins over the interval and monostructural
rules and no fall-through happens. -/
theorem workoutTyper_duration_priority_witness :
    workoutTyper ⟨1094, 6, true, 5, 0, 1, true, .custom⟩ = .endurance :=
  (workoutTyper_duration_priority _).1 (by norm_num)

/-- C3: on the published scenario splits [90, 88, 89, 89, 96, 94] the
fatigue drift is (93 − 89) / 89 = 4/89 (the halves being the first three
and last three splits) and the consistency spread is (96 − 88) / 91 =
8/91, each within 0.001 of the spec's published 0.045 and 0.087. -/
theorem scenario_drift_and_spread :
    fatigueDrift [90, 88, 89, 89, 96, 94] = some (4 / 89) ∧
    |(4 : ℚ) / 89 - 45 / 1000| < 1 / 1000 ∧
    spreadRatio [90, 88, 89, 89, 96, 94] = some (8 / 91) ∧
    |(8 : ℚ) / 91 - 87 / 1000| < 1 / 1000 := by
  refine ⟨?_, ?_, ?_, ?_⟩
  · norm_num [fatigueDrift, mean]
  · norm_num [abs]
  · norm_num [spreadRatio, mean, listMax, listMin]
  · norm_num [abs]

/-- C5: on a non-empty snapshot the Normalizer returns the fraction of
snapshot values ≤ the new value scaled to 0–100; a value strictly greater
than all prior values of a non-empty post-insertion snapshot scores
exactly 100; and the Normalizer returns null exactly when the snapshot is
empty. -/
theorem normalizeScore_fraction_top_and_null (v : ℚ) (prior snap : List ℚ) :
    (snap ≠ [] → normalizeScore v snap =
      some (100 * ((snap.filter fun x => decide (x ≤ v)).length : ℚ)
        / (snap.length : ℚ))) ∧
    ((∀ x ∈ prior, x < v) → normalizeScore v (prior ++ [v]) = some 100) ∧
    (normalizeScore v snap = none ↔ snap = []) := by
  refine ⟨?_, ?_, ?_⟩
  · intro h
    simp [normalizeScore, h]
  · intro h
    have hfil : (prior ++ [v]).filter (fun x => decide (x ≤ v)) = prior ++ [v] := by
      refine List.filter_eq_self.mpr fun a ha => ?_
      rcases List.mem_append.mp ha with ha | ha
      · exact decide_eq_true (le_of_lt (h a ha))
      · simp at ha
        exact decide_eq_true (le_of_eq ha)
    have hlen : ((prior ++ [v]).length : ℚ) ≠ 0 := by
      simp only [List.length_append, List.length_cons, List.length_nil, Nat.cast_add]
      positivity
    simp only [normalizeScore, hfil]
    rw [if_neg (by simp)]
    rw [mul_div_assoc, div_self hlen, mul_one]
  · constructor
    · intro h
      by_cases hs : snap = []
      · exact hs
      · simp [normalizeScore, hs] at h
    · intro h
      simp [normalizeScore, h]

/-- Concrete instance of C5: 10 inserted above the prior snapshot values
1, 2, 3 scores exactly 100. -/
theorem normalizeScore_fraction_top_and_null_witness :
    normalizeScore 10 [1, 2, 3, 10] = some 100 :=
  (normalizeScore_fraction_top_and_null 10 [1, 2, 3] []).2.1
    (by intro x hx; fin_cases hx <;> norm_num)

/-- C6: the confidence tier is a total function of the sample count alone:
0–4 samples yield low, 5–14 yield medium, 15 or more yield high, and no
other confidence value (in particular not no-data) is ever produced. -/
theorem confidenceTier_bands (n : ℕ) :
    (n ≤ 4 → confidenceTier n = .low) ∧
    (5 ≤ n → n ≤ 14 → confidenceTier n = .medium) ∧
    (15 ≤ n → confidenceTier n = .high) ∧
    confidenceTier n ≠ .noData := by
  unfold confidenceTier
  refine ⟨fun h => ?_, fun h h' => ?_, fun h => ?_, ?_⟩
  · rw [if_pos (by omega)]
  · rw [if_neg (by omega), if_pos (by omega)]
  · rw [if_neg (by omega), if_neg (by omega)]
  · split_ifs <;> simp

lemma modalityEwu_cons (m : Modality) (e : ScoredEntry) (es : List ScoredEntry) :
    modalityEwu m (e :: es)
      = (if e.modality = m then e.work else 0) + modalityEwu m es := by
  by_cases h : e.modality = m <;> simp [modalityEwu, List.filter_cons, h]

lemma sum_allModalities (entries : List ScoredEntry) :
    (allModalities.map fun m => modalityEwu m entries).sum = totalEwu entries := by
  induction entries with
  | nil => simp [allModalities, modalityEwu, totalEwu]
  | cons e es ih =>
      have hsum : totalEwu (e :: es) = e.work + totalEwu es := by
        simp [totalEwu]
      rw [hsum, ← ih]
      cases h : e.modality <;>
        simp [allModalities, modalityEwu_cons, h] <;> ring

lemma modalityEwu_eq_zero_of_absent (m : Modality) (entries : List ScoredEntry)
    (h : m ∉ entries.map (·.modality)) : modalityEwu m entries = 0 := by
  have hfil : entries.filter (fun e => decide (e.modality = m)) = [] := by
    refine List.filter_eq_nil_iff.mpr fun a ha => ?_
    simp only [decide_eq_true_eq]
    intro hm
    exact h (List.mem_map.mpr ⟨a, ha, hm⟩)
  simp [modalityEwu, hfil]

lemma sum_map_filter_of_zero {α : Type} (xs : List α) (p : α → Bool) (f : α → ℚ)
    (h : ∀ x ∈ xs, p x = false → f x = 0) :
    ((xs.filter p).map f).sum = (xs.map f).sum := by
  induction xs with
  | nil => rfl
  | cons a as ih =>
      have ih' := ih fun x hx => h x (List.mem_cons_of_mem a hx)
      cases hp : p a with
      | true => simp [List.filter_cons, hp, ih']
      | false =>
          have hz : f a = 0 := h a (List.mem_cons_self a as) hp
          simp [List.filter_cons, hp, ih', hz]

lemma sum_presentModalities (entries : List ScoredEntry) :
    ((presentModalities entries).map fun m => modalityEwu m entries).sum
      = totalEwu entries := by
  rw [← sum_allModalities entries]
  exact sum_map_filter_of_zero allModalities _ _ fun m _ hm =>
    modalityEwu_eq_zero_of_absent m entries (by simpa using hm)

/-- C4: the total work quantity is the sum of the entries' work
quantities; when the total is positive the modality shares are present and
sum to exactly 1; when the total is 0 the shares are null rather than the
result of dividing by zero. -/
theorem totalEwu_sum_and_shares (entries : List ScoredEntry) :
    totalEwu entries = (entries.map (·.work)).sum ∧
    (0 < totalEwu entries →
      ∃ shares, modalityShares entries = some shares ∧
        (shares.map Prod.snd).sum = 1) ∧
    (totalEwu entries = 0 → modalityShares entries = none) := by
  refine ⟨rfl, ?_, ?_⟩
  · intro hpos
    have hne : totalEwu entries ≠ 0 := ne_of_gt hpos
    refine ⟨(presentModalities entries).map
      (fun m => (m, modalityEwu m entries / totalEwu entries)), ?_, ?_⟩
    · simp [modalityShares, hne]
    · have hmap : ((presentModalities entries).map
          (fun m => (m, modalityEwu m entries / totalEwu entries))).map Prod.snd
          = (presentModalities entries).map
            (fun m => modalityEwu m entries * (totalEwu entries)⁻¹) := by
        simp [List.map_map, Function.comp, div_eq_mul_inv]
      rw [hmap, List.sum_map_mul_right, sum_presentModalities,
        mul_inv_cancel₀ hne]
  · intro h
    simp [modalityShares, h]

/-- Concrete instance of C4: the published scenario's single round (10
machine calories + 15.2 lift units + 10 machine calories) totals 35.2 work
units, and its machine and lift shares 25/44 and 19/44 sum to 1. -/
theorem totalEwu_sum_and_shares_witness :
    totalEwu [⟨.machine, 10⟩, ⟨.barbell, 76 / 5⟩, ⟨.machine, 10⟩] = 176 / 5 ∧
    modalityShares [⟨.machine, 10⟩, ⟨.barbell, 76 / 5⟩, ⟨.machine, 10⟩]
      = some [(.machine, 25 / 44), (.barbell, 19 / 44)] ∧
    (25 : ℚ) / 44 + 19 / 44 = 1 := by
  have ht : totalEwu [⟨.machine, 10⟩, ⟨.barbell, 76 / 5⟩, ⟨.machine, 10⟩]
      = (176 : ℚ) / 5 := by
    show (10 : ℚ) + (76 / 5 + (10 + 0)) = 176 / 5
    norm_num
  have hm : modalityEwu .machine [⟨.machine, 10⟩, ⟨.barbell, 76 / 5⟩, ⟨.machine, 10⟩]
      = (20 : ℚ) := by
    show (10 : ℚ) + (10 + 0) = 20
    norm_num
  have hb : modalityEwu .barbell [⟨.machine, 10⟩, ⟨.barbell, 76 / 5⟩, ⟨.machine, 10⟩]
      = (76 : ℚ) / 5 := by
    show (76 : ℚ) / 5 + 0 = 76 / 5
    norm_num
  refine ⟨ht, ?_, by norm_num⟩
  rw [modalityShares, if_neg (by rw [ht]; norm_num)]
  rw [show presentModalities [⟨.machine, 10⟩, ⟨.barbell, 76 / 5⟩, ⟨.machine, 10⟩]
      = [.machine, .barbell] from rfl]
  simp only [List.map_cons, List.map_nil, hm, hb, ht]
  norm_num

lemma ts_le_newestTs (l : List DistEntry) (x : DistEntry) (h : x ∈ l) :
    x.ts ≤ newestTs l := by
  induction l with
  | nil => cases h
  | cons a as ih =>
      rcases List.mem_cons.mp h with h | h
      · rw [h, newestTs]
        exact le_max_left _ _
      · exact le_trans (ih h) (le_max_right _ _)

lemma newestTs_le (l : List DistEntry) (b : ℕ) (h : ∀ x ∈ l, x.ts ≤ b) :
    newestTs l ≤ b := by
  induction l with
  | nil => exact Nat.zero_le b
  | cons a as ih =>
      rw [newestTs]
      exact max_le (h a (List.mem_cons_self a as))
        (ih fun x hx => h x (List.mem_cons_of_mem a hx))

lemma newestTs_eq (l : List DistEntry) (e : DistEntry) (he : e ∈ l)
    (h : ∀ x ∈ l, x.ts ≤ e.ts) : newestTs l = e.ts :=
  le_antisymm (newestTs_le l e.ts h) (ts_le_newestTs l e he)

/-- C7: a snapshot taken immediately after an insert (of an entry at least
as new as everything already in the set, the pipeline's calling
discipline) includes the just-inserted value; and every value of any
snapshot comes from a stored entry within the 180-day window measured from
the newest timestamp present. -/
theorem distSnapshot_insert_and_window (s t : List DistEntry) (e : DistEntry) :
    ((∀ x ∈ s, x.ts ≤ e.ts) → e.value ∈ distSnapshot (distInsert s e)) ∧
    (∀ v ∈ distSnapshot t, ∃ x, x ∈ t ∧ x.value = v ∧
      newestTs t ≤ x.ts + windowDays) := by
  constructor
  · intro h
    have hA : ∀ x ∈ s ++ [e], x.ts ≤ e.ts := by
      intro x hx
      rcases List.mem_append.mp hx with hx | hx
      · exact h x hx
      · simp at hx
        rw [hx]
    have heA : e ∈ s ++ [e] := List.mem_append.mpr (Or.inr (by simp))
    have hnewA : newestTs (s ++ [e]) = e.ts := newestTs_eq _ e heA hA
    have heB : e ∈ distInsert s e := by
      refine List.mem_filter.mpr ⟨heA, ?_⟩
      simp [inWindow, hnewA]
    have hB : ∀ x ∈ distInsert s e, x.ts ≤ e.ts := fun x hx =>
      hA x (List.mem_filter.mp hx).1
    have hnewB : newestTs (distInsert s e) = e.ts := newestTs_eq _ e heB hB
    refine List.mem_map.mpr ⟨e, List.mem_filter.mpr ⟨heB, ?_⟩, rfl⟩
    simp [inWindow, hnewB]
  · intro v hv
    rcases List.mem_map.mp hv with ⟨x, hx, hxv⟩
    rcases List.mem_filter.mp hx with ⟨hxt, hxw⟩
    exact ⟨x, hxt, hxv, of_decide_eq_true hxw⟩

/-- Concrete instance of C7: inserting value 7 at day 1000 into a store
holding day-900 and day-100 entries yields a snapshot containing 7, and
every snapshot value of that store is within the window of day 1000. -/
theorem distSnapshot_insert_and_window_witness :
    (7 : ℚ) ∈ distSnapshot (distInsert
      [⟨5, 1, 900⟩, ⟨3, 2, 100⟩] ⟨7, 3, 1000⟩) ∧
    distSnapshot (distInsert [⟨5, 1, 900⟩, ⟨3, 2, 100⟩] ⟨7, 3, 1000⟩)
      = [5, 7] := by
  constructor
  · exact (distSnapshot_insert_and_window [⟨5, 1, 900⟩, ⟨3, 2, 100⟩] [] ⟨7, 3, 1000⟩).1
      (by intro x hx; fin_cases hx <;> norm_num)
  · rfl

/-- C9: after a movement-type change the entry never carries both calories
and an external load: selecting a machine movement clears the load and
resets the repetitions to 1 (keeping calories), and selecting any
non-machine movement clears the calories (keeping load and reps). -/
theorem applyTypeChange_exclusive (m : MovementData) (t : String) :
    ((applyTypeChange m t).load_lb = none ∨ (applyTypeChange m t).calories = none) ∧
    (isMachineMovement t = true →
      (applyTypeChange m t).load_lb = none ∧
      (applyTypeChange m t).reps = 1 ∧
      (applyTypeChange m t).calories = m.calories) ∧
    (isMachineMovement t = false →
      (applyTypeChange m t).calories = none ∧
      (applyTypeChange m t).load_lb = m.load_lb ∧
      (applyTypeChange m t).reps = m.reps) := by
  by_cases h : isMachineMovement t <;> simp [applyTypeChange, h]

/-- C10: the submitted splits are exactly the entered splits with strictly
positive duration (never padded, so possibly fewer than the declared round
count), and an empty filtered list is sent as null; concretely, splits
[90, 0, 88] for 3 declared rounds submit as the 2-element list [90, 88]. -/
theorem submittedSplits_positive_or_null (splits : List SplitData) :
    (∀ l, submittedSplits splits = some l →
      l = splits.filter (fun s => decide (0 < s.time_seconds)) ∧
      (∀ x ∈ l, 0 < x.time_seconds ∧ x ∈ splits) ∧
      l.length ≤ splits.length ∧ l ≠ []) ∧
    ((splits.filter fun s => decide (0 < s.time_seconds)) = [] →
      submittedSplits splits = none) ∧
    submittedSplits [⟨1, 90⟩, ⟨2, 0⟩, ⟨3, 88⟩] = some [⟨1, 90⟩, ⟨3, 88⟩] ∧
    [(⟨1, 90⟩ : SplitData), ⟨3, 88⟩].length < 3 := by
  refine ⟨?_, ?_, by rfl, by simp⟩
  · intro l hl
    by_cases hpos : (splits.filter fun s => decide (0 < s.time_seconds)).length > 0
    · have heq : submittedSplits splits
          = some (splits.filter fun s => decide (0 < s.time_seconds)) := by
        simp [submittedSplits, hpos]
      rw [heq] at hl
      cases hl
      refine ⟨rfl, fun x hx => ?_, List.length_filter_le _ _, ?_⟩
      · have hmem := List.mem_filter.mp hx
        exact ⟨of_decide_eq_true hmem.2, hmem.1⟩
      · intro hnil
        rw [hnil] at hpos
        simp at hpos
    · have heq : submittedSplits splits = none := by
        simp [submittedSplits, hpos]
      rw [heq] at hl
      cases hl
  · intro h
    simp [submittedSplits, h]

end Prodigy
